import Mathlib

/-!
Verification of the sigil static security auditor core (Rust CLI) against its
specification: the detection-and-verdict pipeline, the quarantine lifecycle,
the content-addressed result cache and the result diff engine.

Shallow embedding conventions:
  * Rust u32/u64 values are Nat; arithmetic that can overflow applies an
    explicit modulus (u32m, 2 ^ 64 bounds).
  * Fallible or panicking Rust paths return Option/Except: none models a
    panic (for example Regex::new(p).unwrap() on a bad pattern, or a byte
    slice &line[..200] that is not on a character boundary).
  * The filesystem, the quarantine ledger and the cache directory are passed
    explicitly as values.
  * Compiled regexes of the external regex crate are either hand-translated
    into Lean predicates on a line (one per rule, next to its pattern source
    text) or, where a whole engine is quantified over, modelled as a
    compilation function of type String to Option (String to Bool).
-/

set_option maxRecDepth 20000

namespace Sigil

-- ===========================================================================
-- Data model (src/cli/src/scanner/mod.rs)
-- ===========================================================================

/-- The six scan phases (enum Phase in scanner/mod.rs). -/
inductive Phase where
  | installHooks
  | codePatterns
  | networkExfil
  | credentials
  | obfuscation
  | provenance
deriving DecidableEq, Repr

/-- Severity level for an individual finding (enum Severity in scanner/mod.rs). -/
inductive Severity where
  | low
  | medium
  | high
  | critical
deriving DecidableEq, Repr

/-- A single security finding (struct Finding in scanner/mod.rs).
weight is a Rust u32; its value set by the scanner is below 2 ^ 32. -/
structure Finding where
  phase : Phase
  rule : String
  severity : Severity
  file : String
  line : Option Nat
  snippet : String
  weight : Nat
deriving DecidableEq, Repr

/-- Overall scan verdict (enum Verdict in scanner/mod.rs). -/
inductive Verdict where
  | clean
  | lowRisk
  | mediumRisk
  | highRisk
  | critical
deriving DecidableEq, Repr

/-- The result of a complete scan (struct ScanResult in scanner/mod.rs). -/
structure ScanResult where
  findings : List Finding
  score : Nat
  verdict : Verdict
  files_scanned : Nat
  duration_ms : Nat
deriving DecidableEq, Repr

-- ===========================================================================
-- Scoring / verdict engine (src/cli/src/scanner/scoring.rs)
-- ===========================================================================

/-- Reduction modulo 2 ^ 32: Rust u32 wrapping arithmetic (release-profile
semantics; a debug build would abort on the same overflow, so either way an
overflowing computation diverges from the unbounded mathematical value). -/
def u32m (n : Nat) : Nat := n % 4294967296

/-- severity_score in scoring.rs: Low 1, Medium 2, High 3, Critical 5. -/
def severity_score : Severity → Nat
  | Severity.low => 1
  | Severity.medium => 2
  | Severity.high => 3
  | Severity.critical => 5

/-- calculate_score in scoring.rs: findings.iter().map(|f| severity_score(f.severity) * f.weight).sum(),
with u32 products and a u32 running sum. -/
def calculate_score (findings : List Finding) : Nat :=
  findings.foldl (fun acc f => u32m (acc + u32m (severity_score f.severity * f.weight))) 0

/-- determine_verdict in scoring.rs: Clean for no findings; Critical for any
(InstallHooks, Critical) finding or score > 100; then HighRisk for score > 50,
MediumRisk for score > 10, else LowRisk. -/
def determine_verdict (findings : List Finding) (score : Nat) : Verdict :=
  if findings.isEmpty then
    Verdict.clean
  else
    let has_critical_install :=
      findings.any fun f =>
        decide (f.phase = Phase.installHooks ∧ f.severity = Severity.critical)
    if has_critical_install ∨ 100 < score then Verdict.critical
    else if 50 < score then Verdict.highRisk
    else if 10 < score then Verdict.mediumRisk
    else Verdict.lowRisk

/-- Rank of a verdict on the ordered ladder Clean < LowRisk < MediumRisk <
HighRisk < Critical. -/
def verdictRank : Verdict → Nat
  | Verdict.clean => 0
  | Verdict.lowRisk => 1
  | Verdict.mediumRisk => 2
  | Verdict.highRisk => 3
  | Verdict.critical => 4

/-- The per-finding score term of the specification formula. -/
def scoreTerm (f : Finding) : Nat := severity_score f.severity * f.weight

/-- Concrete finding whose u32 score contribution overflows: weight 2 ^ 31
with Critical severity, so severity_score * weight = 5 * 2 ^ 31 wraps. -/
def overflowFinding : Finding :=
  { phase := Phase.codePatterns
    rule := "CODE-001"
    severity := Severity.critical
    file := "a.py"
    line := some 1
    snippet := "x"
    weight := 2147483648 }

/-- Concrete small finding used to instantiate score-threshold statements. -/
def sampleFinding : Finding :=
  { phase := Phase.codePatterns
    rule := "CODE-001"
    severity := Severity.high
    file := "a.py"
    line := some 1
    snippet := "eval(x)"
    weight := 5 }

/-- Same severity and weight as sampleFinding but a different rule and file:
used to instantiate the determinism part of the score formula. -/
def relabeledFinding : Finding :=
  { phase := Phase.networkExfil
    rule := "NET-008"
    severity := Severity.high
    file := "b.js"
    line := some 9
    snippet := "socket.socket("
    weight := 5 }

/-- Concrete InstallHooks Critical finding. -/
def criticalInstallFinding : Finding :=
  { phase := Phase.installHooks
    rule := "INSTALL-001"
    severity := Severity.critical
    file := "setup.py"
    line := some 2
    snippet := "cmdclass"
    weight := 10 }

-- ===========================================================================
-- String utilities shared by the line-oriented detectors
-- (Rust str semantics, over character lists so every definition reduces)
-- ===========================================================================

/-- UTF-8 byte length of a character list (Rust str::len counts bytes). -/
def byteLen (cs : List Char) : Nat := (cs.map Char.utf8Size).sum

/-- The characters covered by the byte range [0, n) of the UTF-8 encoding:
some prefix when n lands on a character boundary, none when it falls inside
a multi-byte character (Rust &line[..n] panics there). -/
def bytePrefixChars : List Char → Nat → Option (List Char)
  | _, 0 => some []
  | [], _ + 1 => none
  | c :: cs, n + 1 =>
    if c.utf8Size ≤ n + 1 then
      (bytePrefixChars cs (n + 1 - c.utf8Size)).map (c :: ·)
    else none

/-- str::trim of Rust: strip whitespace from both ends. -/
def rustTrim (s : String) : String :=
  String.mk (((s.toList.dropWhile Char.isWhitespace).reverse.dropWhile
    Char.isWhitespace).reverse)

/-- Finish one line split off by an LF: a CR immediately before the LF is
stripped (str::lines semantics); the accumulator holds the line reversed. -/
def finishLine (cur : List Char) : List Char :=
  match cur with
  | '\r' :: rest => rest.reverse
  | _ => cur.reverse

/-- Worker for str::lines over the remaining characters. -/
def rustLinesGo (cur : List Char) : List Char → List (List Char)
  | [] => if cur = [] then [] else [cur.reverse]
  | c :: cs =>
    if c = '\n' then finishLine cur :: rustLinesGo [] cs
    else rustLinesGo (c :: cur) cs

/-- str::lines of Rust: split at LF or CRLF; a final line ending produces no
trailing empty line. -/
def rustLines (s : String) : List String := (rustLinesGo [] s.toList).map String.mk

/-- The snippet expression shared by scan_lines in phases.rs and the match
loop of cloud_sigs.rs: if line.len() > 200 then the first 200 bytes plus
a space and an ellipsis, else the line unchanged; the byte slice at 200
panics (none) when that offset is not a character boundary. -/
def rustSnippet (line : String) : Option String :=
  if 200 < byteLen line.toList then
    (bytePrefixChars line.toList 200).map (fun cs => String.mk cs ++ " ...")
  else some line

/-- Whether the first character list leads the second (kernel-reducible
substitute for the library prefix test). -/
def leadsChars : List Char → List Char → Bool
  | [], _ => true
  | _ :: _, [] => false
  | a :: as, b :: bs => a == b && leadsChars as bs

/-- Whether the string s starts with the string pre. -/
def hasStart (pre s : String) : Bool := leadsChars pre.toList s.toList

/-- Substring search: does the haystack contain pat at some position. -/
def containsSeq (pat : List Char) : List Char → Bool
  | [] => pat.isEmpty
  | c :: cs => leadsChars pat (c :: cs) || containsSeq pat cs

/-- String-level substring test. -/
def containsLit (pat s : String) : Bool := containsSeq pat.toList s.toList

/-- Whether s ends with the given suffix. -/
def strEnds (suf s : String) : Bool := leadsChars suf.toList.reverse s.toList.reverse

/-- The regex character class for whitespace, on the ASCII range the verified
patterns exercise. -/
def rustWs (c : Char) : Bool :=
  c == ' ' || c == '\t' || c == '\n' || c == '\x0b' || c == '\x0c' || c == '\r'

/-- Match whitespace-star followed by the character c at the head. -/
def wsThen (c : Char) : List Char → Bool
  | [] => false
  | d :: ds => if d = c then true else if rustWs d then wsThen c ds else false

/-- If s is pat followed by rest, return rest. -/
def afterLead : List Char → List Char → Option (List Char)
  | [], s => some s
  | _ :: _, [] => none
  | a :: as, b :: bs => if a = b then afterLead as bs else none

/-- Search s for the literal lit followed by whitespace-star and then c. -/
def litWsChar (lit : List Char) (c : Char) : List Char → Bool
  | [] =>
    match afterLead lit [] with
    | some rest => wsThen c rest
    | none => false
  | d :: ds =>
    (match afterLead lit (d :: ds) with
     | some rest => wsThen c rest
     | none => false) || litWsChar lit c ds

/-- ASCII lowercasing (kernel-reducible model of to_lowercase; the strings
compared against are all ASCII). -/
def lowerAscii (s : String) : String := String.mk (s.toList.map Char.toLower)

/-- ASCII uppercasing (model of to_uppercase on the ASCII strings used). -/
def upperAscii (s : String) : String := String.mk (s.toList.map Char.toUpper)

/-- Split a character list on a separator, keeping empty segments. -/
def splitOnChar (sep : Char) : List Char → List (List Char)
  | [] => [[]]
  | c :: cs =>
    if c = sep then [] :: splitOnChar sep cs
    else
      match splitOnChar sep cs with
      | seg :: rest => (c :: seg) :: rest
      | [] => [[c]]

/-- Path::new(file).file_name().map(to_string_lossy).unwrap_or_default() for
ordinary relative paths: the last nonempty slash-separated component; the
special components dot and dot-dot give none in Rust, hence the empty
default. -/
def fileNameOf (file : String) : String :=
  match ((splitOnChar '/' file.toList).filter fun s => !s.isEmpty).getLast? with
  | some s => if s = ['.'] ∨ s = ['.', '.'] then "" else String.mk s
  | none => ""

-- ===========================================================================
-- Line-oriented scanning core (scan_lines in src/cli/src/scanner/phases.rs)
-- ===========================================================================

/-- One row of a compiled pattern table: the regex source text handed to
Regex::new together with its hand-translated Lean line matcher, rule id,
severity and description. -/
structure PatternRule where
  pattern : String
  isMatch : String → Bool
  rule : String
  severity : Severity
  description : String

/-- The findings of a single line against the pattern rows in table order;
none models the panic of the snippet byte slice on a matching line. -/
def lineFindings (file : String) (phase : Phase) (weight : Nat) (lineNum : Nat)
    (line : String) : List PatternRule → Option (List Finding)
  | [] => some []
  | p :: ps =>
    if p.isMatch line then
      match rustSnippet line with
      | none => none
      | some snippet =>
        (lineFindings file phase weight lineNum line ps).map
          (fun rest =>
            { phase := phase
              rule := p.rule
              severity := p.severity
              file := file
              line := some (lineNum + 1)
              snippet := p.description ++ ": " ++ rustTrim snippet
              weight := weight } :: rest)
    else lineFindings file phase weight lineNum line ps

/-- The enumerated line loop of scan_lines. -/
def scanLinesGo (file : String) (phase : Phase) (weight : Nat)
    (patterns : List PatternRule) (lineNum : Nat) : List String → Option (List Finding)
  | [] => some []
  | line :: rest =>
    match lineFindings file phase weight lineNum line patterns with
    | none => none
    | some here =>
      (scanLinesGo file phase weight patterns (lineNum + 1) rest).map (here ++ ·)

/-- scan_lines in phases.rs: for every (0-based) line and every pattern row,
a match emits a finding with 1-based line number, the truncated trimmed
snippet prefixed by the rule description, and the phase weight. -/
def scan_lines (file contents : String) (phase : Phase) (weight : Nat)
    (patterns : List PatternRule) : Option (List Finding) :=
  scanLinesGo file phase weight patterns 0 (rustLines contents)

-- ===========================================================================
-- Phase 1 detector: install hooks (scan_install_hooks in phases.rs)
-- Each matcher is the hand translation of the regex source next to it.
-- ===========================================================================

/-- Matcher of r#cmdclass#: contains the literal. -/
def mInstall001 (line : String) : Bool := containsLit "cmdclass" line

/-- Matcher of (?i)(pre_install|post_install|install_scripts): one of three
lowercase literals inside the lowercased line. -/
def mInstall002 (line : String) : Bool :=
  containsLit "pre_install" (lowerAscii line) ||
  containsLit "post_install" (lowerAscii line) ||
  containsLit "install_scripts" (lowerAscii line)

/-- Matcher of the quoted alternation for npm lifecycle scripts. -/
def mInstall003 (line : String) : Bool :=
  containsLit "\"preinstall\"" line || containsLit "\"postinstall\"" line ||
  containsLit "\"preuninstall\"" line || containsLit "\"postuninstall\"" line

/-- Matcher of the quoted alternation for npm publish lifecycle scripts. -/
def mInstall004 (line : String) : Bool :=
  containsLit "\"prepare\"" line || containsLit "\"prepublish\"" line ||
  containsLit "\"prepublishOnly\"" line

/-- Matcher of the anchored install-target pattern: line starts with the
literal install, then whitespace-star, then a colon. -/
def mInstall005 (line : String) : Bool :=
  match afterLead "install".toList line.toList with
  | some rest => wsThen ':' rest
  | none => false

/-- Matcher of the anchored dot-PHONY / dot-ONESHELL pattern followed by
anything and the literal install. -/
def mInstall006 (line : String) : Bool :=
  (match afterLead ".PHONY".toList line.toList with
   | some rest => containsSeq "install".toList rest
   | none => false) ||
  (match afterLead ".ONESHELL".toList line.toList with
   | some rest => containsSeq "install".toList rest
   | none => false)

/-- Matcher of the escaped bracketed tool.setuptools.cmdclass literal. -/
def mInstall007 (line : String) : Bool := containsLit "[tool.setuptools.cmdclass]" line

/-- Matcher of build-backend, whitespace-star, equals sign. -/
def mInstall008 (line : String) : Bool := litWsChar "build-backend".toList '=' line.toList

/-- Matcher of the MCP configuration file alternation. -/
def mInstallMcp1 (line : String) : Bool :=
  containsLit "claude_desktop_config" line || containsLit "mcp_config.json" line ||
  containsLit ".mcp.json" line

/-- Matcher of mcpServers or mcp_servers. -/
def mInstallMcp2 (line : String) : Bool :=
  containsLit "mcpServers" line || containsLit "mcp_servers" line

/-- The MCP configuration row pushed by scan_install_hooks for every file. -/
def mcpRule1 : PatternRule :=
  { pattern := "claude_desktop_config|mcp_config\\.json|\\.mcp\\.json"
    isMatch := mInstallMcp1
    rule := "INSTALL-MCP-001"
    severity := Severity.medium
    description := "MCP configuration file detected" }

/-- The MCP server registry row pushed by scan_install_hooks for every file. -/
def mcpRule2 : PatternRule :=
  { pattern := "mcpServers|mcp_servers"
    isMatch := mInstallMcp2
    rule := "INSTALL-MCP-002"
    severity := Severity.low
    description := "MCP server registry entry" }

/-- The pattern Vec that scan_install_hooks builds for a given filename:
filename-gated rule pairs for setup.py/setup.cfg, package.json, Makefile
variants and pyproject.toml, and the two MCP rules pushed unconditionally. -/
def installHooksTable (filename : String) : List PatternRule :=
  (if filename = "setup.py" ∨ filename = "setup.cfg" then
    [{ pattern := "cmdclass", isMatch := mInstall001, rule := "INSTALL-001",
       severity := Severity.critical,
       description := "setup.py cmdclass override (code runs at install time)" },
     { pattern := "(?i)(pre_install|post_install|install_scripts)",
       isMatch := mInstall002, rule := "INSTALL-002", severity := Severity.critical,
       description := "setup.py custom install hook" }]
   else []) ++
  (if filename = "package.json" then
    [{ pattern := "\"(preinstall|postinstall|preuninstall|postuninstall)\"",
       isMatch := mInstall003, rule := "INSTALL-003", severity := Severity.critical,
       description := "npm lifecycle script (runs automatically on install)" },
     { pattern := "\"(prepare|prepublish|prepublishOnly)\"",
       isMatch := mInstall004, rule := "INSTALL-004", severity := Severity.high,
       description := "npm publish lifecycle script" }]
   else []) ++
  (if filename = "Makefile" ∨ filename = "makefile" ∨ strEnds ".mk" filename then
    [{ pattern := "^install\\s*:", isMatch := mInstall005, rule := "INSTALL-005",
       severity := Severity.medium, description := "Makefile install target" },
     { pattern := "^\\.(PHONY|ONESHELL).*install", isMatch := mInstall006,
       rule := "INSTALL-006", severity := Severity.low,
       description := "Makefile install phony target" }]
   else []) ++
  (if filename = "pyproject.toml" then
    [{ pattern := "\\[tool\\.setuptools\\.cmdclass\\]", isMatch := mInstall007,
       rule := "INSTALL-007", severity := Severity.critical,
       description := "pyproject.toml cmdclass override" },
     { pattern := "build-backend\\s*=", isMatch := mInstall008, rule := "INSTALL-008",
       severity := Severity.low, description := "Custom build backend declared" }]
   else []) ++
  [mcpRule1, mcpRule2]

/-- scan_install_hooks in phases.rs: build the filename-dependent table and
run the line scanner with phase InstallHooks and weight 10. -/
def scan_install_hooks (file contents : String) : Option (List Finding) :=
  scan_lines file contents Phase.installHooks 10 (installHooksTable (fileNameOf file))

/-- The single finding scan_install_hooks emits for an unrecognized filename
whose content holds an MCP server registry key. -/
def mcpFinding : Finding :=
  { phase := Phase.installHooks
    rule := "INSTALL-MCP-002"
    severity := Severity.low
    file := "notes.txt"
    line := some 1
    snippet := "MCP server registry entry: mcpServers"
    weight := 10 }

-- ===========================================================================
-- Regex-crate compilation model and phase 5 detector (scan_obfuscation)
-- ===========================================================================

/-- A regex engine: Regex::new modelled as a map from pattern source text to
an optional compiled line matcher (none: compilation error). -/
abbrev RegexEngine : Type := String → Option (String → Bool)

/-- ASCII hexadecimal digit. -/
def isHexDigitCh (c : Char) : Bool :=
  (48 ≤ c.toNat && c.toNat ≤ 57) || (97 ≤ c.toNat && c.toNat ≤ 102) ||
  (65 ≤ c.toNat && c.toNat ≤ 70)

/-- Detect an ill-formed hexadecimal escape in a regex source: the regex
crate parser demands, after backslash-x, backslash-u or backslash-U, either
an opening brace (code 123) or a hexadecimal digit, and rejects the pattern
otherwise (EscapeHexInvalidDigit; an escape ending the pattern is
EscapeUnexpectedEof). Any other escaped character is skipped whole so an
escaped backslash never starts an escape. -/
def hasBadHexEscape : List Char → Bool
  | [] => false
  | ['\\'] => false
  | '\\' :: c :: rest =>
    if c == 'x' || c == 'u' || c == 'U' then
      match rest with
      | [] => true
      | d :: _ =>
        if d.toNat == 123 || isHexDigitCh d then hasBadHexEscape rest else true
    else hasBadHexEscape rest
  | _ :: rest => hasBadHexEscape rest

/-- An engine respects the regex-crate hex escape rule when it rejects every
pattern containing an ill-formed hex escape. -/
def RespectsHexEscapes (engine : RegexEngine) : Prop :=
  ∀ p : String, hasBadHexEscape p.data = true → engine p = none

/-- A pattern-table row before compilation: regex source, rule id, severity,
description. -/
structure RuleSource where
  pattern : String
  rule : String
  severity : Severity
  description : String
deriving DecidableEq, Repr

/-- The OBFUSC-006 row of scan_obfuscation: its regex source text starts
with a backslash-x followed by an opening bracket, an ill-formed hex escape
for the regex crate (braces written as their escape codes). -/
def obfusc006Row : RuleSource :=
  { pattern := "\\x[0-9a-fA-F]\x7b2\x7d(\\x[0-9a-fA-F]\x7b2\x7d)\x7b7,\x7d"
    rule := "OBFUSC-006"
    severity := Severity.high
    description := "Long hex-encoded string (likely obfuscated)" }

/-- The twelve pattern rows of scan_obfuscation, with the regex source texts
as written in phases.rs (Rust raw strings, so the backslashes reach the
regex parser verbatim; braces written here as their escape codes). -/
def obfuscationPatterns : List RuleSource :=
  [{ pattern := "base64\\.(b64)?decode\\s*\\(", rule := "OBFUSC-001",
     severity := Severity.high,
     description := "Base64 decoding (potential obfuscated payload)" },
   { pattern := "atob\\s*\\(", rule := "OBFUSC-002", severity := Severity.high,
     description := "JavaScript atob() — base64 decoding" },
   { pattern := "Buffer\\.from\\s*\\([^)]*,\\s*[\x27\"]base64[\x27\"]",
     rule := "OBFUSC-003", severity := Severity.high,
     description := "Node Buffer.from base64 decoding" },
   { pattern := "String\\.fromCharCode\\s*\\(", rule := "OBFUSC-004",
     severity := Severity.high,
     description := "String.fromCharCode — character code obfuscation" },
   { pattern := "chr\\s*\\(\\s*\\d+\\s*\\)", rule := "OBFUSC-005",
     severity := Severity.medium,
     description := "chr() — character code construction" },
   obfusc006Row,
   { pattern := "0x[0-9a-fA-F]\x7b2\x7d\\s*,\\s*(0x[0-9a-fA-F]\x7b2\x7d\\s*,?\\s*)\x7b7,\x7d",
     rule := "OBFUSC-007", severity := Severity.high,
     description := "Hex byte array (likely obfuscated payload)" },
   { pattern := "\\u[0-9a-fA-F]\x7b4\x7d(\\u[0-9a-fA-F]\x7b4\x7d)\x7b5,\x7d",
     rule := "OBFUSC-008", severity := Severity.medium,
     description := "Long unicode escape sequence" },
   { pattern := "codecs\\.(decode|encode)\\s*\\(", rule := "OBFUSC-009",
     severity := Severity.medium,
     description := "codecs decode/encode — potential obfuscation" },
   { pattern := "(?i)(rot13|rot_13|caesar|cipher)\\s*[\\(\\.]",
     rule := "OBFUSC-010", severity := Severity.medium,
     description := "ROT13 / cipher usage — text obfuscation" },
   { pattern := "(zlib|gzip)\\.(decompress|inflate)\\s*\\(", rule := "OBFUSC-011",
     severity := Severity.medium,
     description := "Inline decompression — potential obfuscated payload" },
   { pattern := "tool_description.*base64|encoded_tool|obfuscated_prompt",
     rule := "OBFUSC-MCP-001", severity := Severity.high,
     description := "Obfuscated MCP tool definition" }]

/-- Building the pattern Vec evaluates Regex::new(row.pattern).unwrap() for
every row: a single failing compilation panics the whole call (none). -/
def compileTable (engine : RegexEngine) : List RuleSource → Option (List PatternRule)
  | [] => some []
  | r :: rs =>
    match engine r.pattern with
    | none => none
    | some m =>
      (compileTable engine rs).map
        ({ pattern := r.pattern, isMatch := m, rule := r.rule,
           severity := r.severity, description := r.description } :: ·)

/-- scan_obfuscation in phases.rs, parametric in the regex engine: build the
table (an unwrap panic is none), then scan lines with phase Obfuscation and
weight 5. -/
def scan_obfuscation (engine : RegexEngine) (file contents : String) :
    Option (List Finding) :=
  match compileTable engine obfuscationPatterns with
  | none => none
  | some patterns => scan_lines file contents Phase.obfuscation 5 patterns

/-- Concrete engine for witnesses: rejects exactly the patterns with an
ill-formed hex escape and compiles everything else to a never-matching
matcher. -/
def hexCheckEngine : RegexEngine := fun p =>
  if hasBadHexEscape p.data then none else some fun _ => false

-- ===========================================================================
-- Cloud signatures (src/cli/src/scanner/cloud_sigs.rs)
-- ===========================================================================

/-- CloudSignature in cloud_sigs.rs. -/
structure CloudSignature where
  id : String
  pattern : String
  phase : String
  severity : String
  description : String
  updated_at : Option String
deriving DecidableEq, Repr

/-- parse_phase in cloud_sigs.rs: lowercase match with CodePatterns default. -/
def parse_phase (s : String) : Phase :=
  if lowerAscii s = "install_hooks" ∨ lowerAscii s = "install-hooks" then Phase.installHooks
  else if lowerAscii s = "code_patterns" ∨ lowerAscii s = "code-patterns" then Phase.codePatterns
  else if lowerAscii s = "network_exfil" ∨ lowerAscii s = "network-exfil" then Phase.networkExfil
  else if lowerAscii s = "credentials" then Phase.credentials
  else if lowerAscii s = "obfuscation" then Phase.obfuscation
  else if lowerAscii s = "provenance" then Phase.provenance
  else Phase.codePatterns

/-- parse_severity in cloud_sigs.rs: uppercase match with Low default. -/
def parse_severity (s : String) : Severity :=
  if upperAscii s = "CRITICAL" then Severity.critical
  else if upperAscii s = "HIGH" then Severity.high
  else if upperAscii s = "MEDIUM" then Severity.medium
  else Severity.low

/-- phase_weight: the map implemented identically in scoring.rs (pub) and as
a private copy in cloud_sigs.rs. -/
def phase_weight : Phase → Nat
  | Phase.installHooks => 10
  | Phase.codePatterns => 5
  | Phase.networkExfil => 3
  | Phase.credentials => 2
  | Phase.obfuscation => 5
  | Phase.provenance => 1

/-- The per-line match loop of scan_with_cloud_signatures for one compiled
signature (same 200-byte snippet logic; none is the byte-boundary panic). -/
def cloudSigFindings (file : String) (sig : CloudSignature) (m : String → Bool)
    (lineNum : Nat) : List String → Option (List Finding)
  | [] => some []
  | line :: rest =>
    if m line then
      match rustSnippet line with
      | none => none
      | some snippet =>
        (cloudSigFindings file sig m (lineNum + 1) rest).map
          ({ phase := parse_phase sig.phase
             rule := sig.id
             severity := parse_severity sig.severity
             file := file
             line := some (lineNum + 1)
             snippet := "[cloud] " ++ sig.description ++ ": " ++ rustTrim snippet
             weight := phase_weight (parse_phase sig.phase) } :: ·)
    else cloudSigFindings file sig m (lineNum + 1) rest

/-- scan_with_cloud_signatures in cloud_sigs.rs, parametric in the regex
engine: a signature whose pattern fails to compile is skipped silently
(continue) and the scan proceeds with the remaining signatures. -/
def scan_with_cloud_signatures (engine : RegexEngine) (file contents : String) :
    List CloudSignature → Option (List Finding)
  | [] => some []
  | sig :: sigs =>
    match engine sig.pattern with
    | none => scan_with_cloud_signatures engine file contents sigs
    | some m =>
      match cloudSigFindings file sig m 0 (rustLines contents) with
      | none => none
      | some fs => (scan_with_cloud_signatures engine file contents sigs).map (fs ++ ·)

/-- A cloud signature whose regex source has the same ill-formed hex escape
shape as OBFUSC-006. -/
def badCloudSig : CloudSignature :=
  { id := "CLOUD-001"
    pattern := "\\x[0-9a-fA-F]\x7b2\x7d"
    phase := "obfuscation"
    severity := "HIGH"
    description := "hex run"
    updated_at := none }

/-- A line of 201 bytes whose byte offset 200 falls inside its final
two-byte character: 199 ASCII characters (an MCP registry key then padding)
followed by one U+00E9. -/
def overlongLine : String :=
  String.mk ("mcpServers".toList ++ List.replicate 189 'a' ++ ['é'])

/-- A 250-byte ASCII line, truncated cleanly at byte 200. -/
def ascii250 : String := String.mk (List.replicate 250 'b')

-- ===========================================================================
-- Diff engine (src/cli/src/diff.rs)
-- ===========================================================================

/-- ScanDiff in diff.rs. -/
structure ScanDiff where
  new_findings : List Finding
  resolved_findings : List Finding
  unchanged_findings : List Finding
  score_delta : Int
  previous_verdict : Verdict
  current_verdict : Verdict
  summary : String
deriving DecidableEq, Repr

/-- diff_scans in diff.rs: match findings by the (rule, file, line) tuple.
The Rust code builds new/unchanged in one pass over current.findings and
resolved in a pass over previous.findings; the equivalent filter formulation
keeps each list in its source order. -/
def diff_scans (previous current : ScanResult) : ScanDiff :=
  let new_findings := current.findings.filter fun finding =>
    ! previous.findings.any fun f =>
        f.rule == finding.rule && f.file == finding.file && f.line == finding.line
  let unchanged_findings := current.findings.filter fun finding =>
    previous.findings.any fun f =>
        f.rule == finding.rule && f.file == finding.file && f.line == finding.line
  let resolved_findings := previous.findings.filter fun finding =>
    ! current.findings.any fun f =>
        f.rule == finding.rule && f.file == finding.file && f.line == finding.line
  let score_delta : Int := (current.score : Int) - (previous.score : Int)
  let summary :=
    toString new_findings.length ++ " new, " ++
    toString resolved_findings.length ++ " resolved, " ++
    toString unchanged_findings.length ++ " unchanged (score: " ++
    toString previous.score ++ " → " ++ toString current.score ++ ", " ++
    (if 0 ≤ score_delta then "+" else "") ++ toString score_delta ++ ")"
  { new_findings := new_findings
    resolved_findings := resolved_findings
    unchanged_findings := unchanged_findings
    score_delta := score_delta
    previous_verdict := previous.verdict
    current_verdict := current.verdict
    summary := summary }

-- ===========================================================================
-- Quarantine lifecycle (src/cli/src/quarantine.rs)
-- ===========================================================================

/-- QuarantineStatus in quarantine.rs. -/
inductive QuarantineStatus where
  | pending
  | approved
  | rejected
deriving DecidableEq, Repr

/-- The Display instance of QuarantineStatus. -/
def statusDisplay : QuarantineStatus → String
  | QuarantineStatus.pending => "pending"
  | QuarantineStatus.approved => "approved"
  | QuarantineStatus.rejected => "rejected"

/-- QuarantineEntry in quarantine.rs. Timestamps are abstract instants (Nat);
Utc::now() is passed in as the explicit argument now. -/
structure QuarantineEntry where
  id : String
  source : String
  source_type : String
  path : String
  status : QuarantineStatus
  created_at : Nat
  updated_at : Nat
  reason : Option String
  scan_score : Option Nat
deriving DecidableEq, Repr

/-- fs::remove_dir_all on root, over a filesystem modelled as the list of
existing paths: drops root itself and everything below it. -/
def removeTree (fs : List String) (root : String) : List String :=
  fs.filter fun p => ! (p == root || hasStart (root ++ "/") p)

/-- approve in quarantine.rs: find the first entry with the given id
(iter_mut().find), error if absent or not Pending, otherwise set status,
updated_at and reason, persist, and return the updated entry. The persisted
ledger is the returned list (save_index modelled as succeeding). -/
def approve (now : Nat) (id : String) (reason : Option String) :
    List QuarantineEntry → Except String (QuarantineEntry × List QuarantineEntry)
  | [] => Except.error ("quarantine entry \x27" ++ id ++ "\x27 not found")
  | e :: rest =>
    if e.id = id then
      if e.status ≠ QuarantineStatus.pending then
        Except.error ("entry \x27" ++ id ++ "\x27 is already " ++
          statusDisplay e.status ++ " (cannot approve)")
      else
        let e2 := { e with status := QuarantineStatus.approved,
                           updated_at := now, reason := reason }
        Except.ok (e2, e2 :: rest)
    else
      match approve now id reason rest with
      | Except.ok p => Except.ok (p.1, e :: p.2)
      | Except.error msg => Except.error msg

/-- reject in quarantine.rs: as approve, but sets Rejected and removes the
staged files under entry.path (fs::remove_dir_all; its failure is ignored by
the code, so removal is modelled as taking effect). -/
def reject (now : Nat) (id : String) (reason : Option String) :
    List QuarantineEntry → List String →
      Except String (QuarantineEntry × List QuarantineEntry × List String)
  | [], _ => Except.error ("quarantine entry \x27" ++ id ++ "\x27 not found")
  | e :: rest, fs =>
    if e.id = id then
      if e.status ≠ QuarantineStatus.pending then
        Except.error ("entry \x27" ++ id ++ "\x27 is already " ++
          statusDisplay e.status ++ " (cannot reject)")
      else
        let e2 := { e with status := QuarantineStatus.rejected,
                           updated_at := now, reason := reason }
        Except.ok (e2, e2 :: rest, removeTree fs e.path)
    else
      match reject now id reason rest fs with
      | Except.ok p => Except.ok (p.1, e :: p.2.1, p.2.2)
      | Except.error msg => Except.error msg

/-- The status-filter mapping in list (quarantine.rs): match on the lowercase
filter string, with every unrecognized string defaulting to Pending. -/
def parseStatusFilter (s : String) : QuarantineStatus :=
  if lowerAscii s = "pending" then QuarantineStatus.pending
  else if lowerAscii s = "approved" then QuarantineStatus.approved
  else if lowerAscii s = "rejected" then QuarantineStatus.rejected
  else QuarantineStatus.pending

/-- list in quarantine.rs: filter the ledger by the parsed status filter,
returning the whole ledger when no filter is given; never an error. -/
def listQuarantine (index : List QuarantineEntry) (status_filter : Option String) :
    Except String (List QuarantineEntry) :=
  match status_filter.map parseStatusFilter with
  | some status => Except.ok (index.filter fun e => decide (e.status = status))
  | none => Except.ok index

/-- Concrete pending ledger entry for witnesses. -/
def pendingEntry : QuarantineEntry :=
  { id := "q1"
    source := "https://example.com/repo.git"
    source_type := "git"
    path := ".sigil/quarantine/q1"
    status := QuarantineStatus.pending
    created_at := 5
    updated_at := 5
    reason := none
    scan_score := none }

/-- Concrete approved ledger entry for witnesses. -/
def approvedEntry : QuarantineEntry :=
  { id := "q2"
    source := "requests"
    source_type := "pip"
    path := ".sigil/quarantine/q2"
    status := QuarantineStatus.approved
    created_at := 3
    updated_at := 4
    reason := some "vetted"
    scan_score := some 2 }

-- ===========================================================================
-- Cache subsystem (src/cli/src/cache.rs): SHA-256 directory fingerprint
-- ===========================================================================

/-- Addition modulo 2 ^ 32 (SHA-256 word arithmetic). -/
def add32 (a b : Nat) : Nat := (a + b) % 4294967296

/-- 32-bit right rotation. -/
def rotr (n x : Nat) : Nat := ((x >>> n) ||| (x <<< (32 - n))) % 4294967296

/-- SHA-256 lowercase sigma 0. -/
def smallSigma0 (x : Nat) : Nat := (rotr 7 x) ^^^ (rotr 18 x) ^^^ (x >>> 3)

/-- SHA-256 lowercase sigma 1. -/
def smallSigma1 (x : Nat) : Nat := (rotr 17 x) ^^^ (rotr 19 x) ^^^ (x >>> 10)

/-- SHA-256 uppercase sigma 0. -/
def bigSigma0 (x : Nat) : Nat := (rotr 2 x) ^^^ (rotr 13 x) ^^^ (rotr 22 x)

/-- SHA-256 uppercase sigma 1. -/
def bigSigma1 (x : Nat) : Nat := (rotr 6 x) ^^^ (rotr 11 x) ^^^ (rotr 25 x)

/-- SHA-256 choice function. -/
def chF (x y z : Nat) : Nat := (x &&& y) ^^^ ((x ^^^ 4294967295) &&& z)

/-- SHA-256 majority function. -/
def majF (x y z : Nat) : Nat := (x &&& y) ^^^ (x &&& z) ^^^ (y &&& z)

/-- The 64 SHA-256 round constants (decimal). -/
def sha256K : List Nat :=
  [1116352408, 1899447441, 3049323471, 3921009573, 961987163, 1508970993,
   2453635748, 2870763221, 3624381080, 310598401, 607225278, 1426881987,
   1925078388, 2162078206, 2614888103, 3248222580, 3835390401, 4022224774,
   264347078, 604807628, 770255983, 1249150122, 1555081692, 1996064986,
   2554220882, 2821834349, 2952996808, 3210313671, 3336571891, 3584528711,
   113926993, 338241895, 666307205, 773529912, 1294757372, 1396182291,
   1695183700, 1986661051, 2177026350, 2456956037, 2730485921, 2820302411,
   3259730800, 3345764771, 3516065817, 3600352804, 4094571909, 275423344,
   430227734, 506948616, 659060556, 883997877, 958139571, 1322822218,
   1537002063, 1747873779, 1955562222, 2024104815, 2227730452, 2361852424,
   2428436474, 2756734187, 3204031479, 3329325298]

/-- The SHA-256 initial hash state (decimal). -/
def sha256H0 : List Nat :=
  [1779033703, 3144134277, 1013904242, 2773480762,
   1359893119, 2600822924, 528734635, 1541459225]

/-- SHA-256 padding: append 0x80, zeros, and the 64-bit big-endian bit length. -/
def shaPad (msg : List Nat) : List Nat :=
  let len := msg.length
  let zeros := (55 + 64 - (len % 64)) % 64
  let bitLen := len * 8
  msg ++ [0x80] ++ List.replicate zeros 0 ++
    ((List.range 8).map fun i => bitLen / (256 ^ (7 - i)) % 256)

/-- Group padded bytes into 32-bit big-endian words. -/
def toWords : List Nat → List Nat
  | a :: b :: c :: d :: rest => (((a * 256 + b) * 256 + c) * 256 + d) :: toWords rest
  | _ => []

/-- Fuel-based 16-word block grouping (structural, so it reduces in the
kernel). -/
def toBlocksAux : Nat → List Nat → List (List Nat)
  | 0, _ => []
  | _, [] => []
  | fuel + 1, ws => ws.take 16 :: toBlocksAux fuel (ws.drop 16)

/-- Split a word list into blocks of 16 words. -/
def toBlocks (ws : List Nat) : List (List Nat) := toBlocksAux ws.length ws

/-- Total word lookup. -/
def getW (l : List Nat) (i : Nat) : Nat := l.getD i 0

/-- Extend a 16-word block to the 64-word message schedule. -/
def msgSchedule (block : List Nat) : List Nat :=
  (List.range 48).foldl
    (fun w i =>
      w ++ [add32 (add32 (smallSigma1 (getW w (i + 14))) (getW w (i + 9)))
              (add32 (smallSigma0 (getW w (i + 1))) (getW w i))])
    block

/-- One SHA-256 round on the 8-word working state. -/
def roundStep (st : List Nat) (kw : Nat × Nat) : List Nat :=
  match st with
  | [a, b, c, d, e, f, g, h] =>
    let t1 := add32 (add32 (add32 h (bigSigma1 e)) (add32 (chF e f g) kw.1)) kw.2
    let t2 := add32 (bigSigma0 a) (majF a b c)
    [add32 t1 t2, a, b, c, add32 d t1, e, f, g]
  | _ => st

/-- SHA-256 block compression. -/
def compress (h : List Nat) (block : List Nat) : List Nat :=
  let w := msgSchedule block
  let st := (sha256K.zip w).foldl roundStep h
  (h.zip st).map fun p => add32 p.1 p.2

/-- SHA-256 of a byte list, as eight 32-bit words. -/
def sha256Words (msg : List Nat) : List Nat :=
  (toBlocks (toWords (shaPad msg))).foldl compress sha256H0

/-- Lowercase hexadecimal digit. -/
def hexDigit (n : Nat) : Char :=
  if n < 10 then Char.ofNat (48 + n) else Char.ofNat (87 + n)

/-- Eight lowercase hex characters of a 32-bit word. -/
def wordHex (w : Nat) : List Char :=
  (List.range 8).map fun i => hexDigit (w / (16 ^ (7 - i)) % 16)

/-- hex::encode(Sha256 digest): the 64-character lowercase hex string. -/
def sha256hex (msg : List Nat) : String :=
  String.mk ((sha256Words msg).foldr (fun w acc => wordHex w ++ acc) [])

-- ===========================================================================
-- Cache subsystem (src/cli/src/cache.rs): fingerprint stream and store
-- ===========================================================================

/-- One regular file under the scanned root as compute_directory_hash sees
it: relative path, byte size (u64) and modification time in whole seconds
(u64). -/
structure FileMeta where
  relPath : String
  size : Nat
  mtime : Nat
deriving DecidableEq, Repr

/-- Strict lexicographic order on character lists by code point, modelling
the BTreeMap key order on paths (the exact total order only fixes the
concatenation order of the fingerprint stream; no verified property depends
on which total order it is). -/
def charListLt : List Char → List Char → Bool
  | [], [] => false
  | [], _ :: _ => true
  | _ :: _, [] => false
  | a :: as, b :: bs =>
    if a.toNat < b.toNat then true
    else if b.toNat < a.toNat then false
    else charListLt as bs

/-- BTreeMap::insert on the path-ordered file list: an existing entry with
the same path is replaced, otherwise the file is placed in key order. -/
def btreeInsert (m : List FileMeta) (f : FileMeta) : List FileMeta :=
  match m with
  | [] => [f]
  | g :: rest =>
    if charListLt f.relPath.data g.relPath.data then f :: g :: rest
    else if f.relPath = g.relPath then f :: rest
    else g :: btreeInsert rest f

/-- The BTreeMap built by the walk loop of compute_directory_hash: every
walked file inserted in turn. -/
def sortDedup (files : List FileMeta) : List FileMeta := files.foldl btreeInsert []

/-- u64::to_le_bytes: the eight little-endian bytes. -/
def leBytes8 (n : Nat) : List Nat :=
  [n % 256, n / 256 % 256, n / 65536 % 256, n / 16777216 % 256,
   n / 4294967296 % 256, n / 1099511627776 % 256,
   n / 281474976710656 % 256, n / 72057594037927936 % 256]

/-- UTF-8 encoding of one character. -/
def utf8Bytes (c : Char) : List Nat :=
  let n := c.toNat
  if n < 128 then [n]
  else if n < 2048 then [192 + n / 64, 128 + n % 64]
  else if n < 65536 then [224 + n / 4096, 128 + n / 64 % 64, 128 + n % 64]
  else [240 + n / 262144, 128 + n / 4096 % 64, 128 + n / 64 % 64, 128 + n % 64]

/-- path.to_string_lossy().as_bytes(): the UTF-8 bytes of the path. -/
def strUtf8 (s : String) : List Nat := s.data.flatMap utf8Bytes

/-- The bytes hashed for one file: path bytes, size.to_le_bytes(),
mtime.to_le_bytes(), in the update order of compute_directory_hash. -/
def fileChunk (f : FileMeta) : List Nat :=
  strUtf8 f.relPath ++ leBytes8 f.size ++ leBytes8 f.mtime

/-- The full byte stream fed to the SHA-256 hasher: the per-file chunks in
BTreeMap (sorted path) order. -/
def hashStream (files : List FileMeta) : List Nat :=
  ((sortDedup files).map fileChunk).flatten

/-- compute_directory_hash in cache.rs: hex::encode(Sha256 over the sorted
(path, size, mtime) stream). -/
def compute_directory_hash (files : List FileMeta) : String :=
  sha256hex (hashStream files)

/-- CACHE_VERSION in cache.rs. -/
def CACHE_VERSION : Nat := 1

/-- CacheEntry in cache.rs. -/
structure CacheEntry where
  version : Nat
  directory_hash : String
  result : ScanResult
deriving DecidableEq, Repr

/-- The cache directory, modelled as an association list from file name to
the parsed CacheEntry it contains. -/
abbrev CacheStore : Type := List (String × CacheEntry)

/-- Look up the cache file with the given name. -/
def lookupCache : CacheStore → String → Option CacheEntry
  | [], _ => none
  | (k, e) :: rest, key => if k = key then some e else lookupCache rest key

/-- fs::write: create or overwrite the named cache file. -/
def storeWrite (store : CacheStore) (key : String) (e : CacheEntry) : CacheStore :=
  (key, e) :: store.filter fun p => !(p.1 == key)

/-- format!("(first 16 hash chars).json"): the cache file name for a
directory hash (the hash is 64 hex characters, so the slice is in range). -/
def cacheFileName (dirHash : String) : String :=
  String.mk (dirHash.data.take 16) ++ ".json"

/-- load_cached in cache.rs: compute the fingerprint, read the cache file
named by its 16-character prefix, and return the stored result only when
the stored version equals CACHE_VERSION and the stored fingerprint equals
the freshly computed one; every failure path is a miss (none). -/
def load_cached (files : List FileMeta) (store : CacheStore) : Option ScanResult :=
  let dir_hash := compute_directory_hash files
  match lookupCache store (cacheFileName dir_hash) with
  | none => none
  | some entry =>
    if entry.version = CACHE_VERSION ∧ entry.directory_hash = dir_hash then
      some entry.result
    else none

/-- save_to_cache in cache.rs: write the versioned entry under the
fingerprint-prefix file name (the prune of entries beyond 100, which keeps
the newest files including the one just written, is outside the verified
properties). -/
def save_to_cache (files : List FileMeta) (result : ScanResult)
    (store : CacheStore) : CacheStore :=
  let dir_hash := compute_directory_hash files
  storeWrite store (cacheFileName dir_hash)
    { version := CACHE_VERSION, directory_hash := dir_hash, result := result }

/-- Same path and size: the relation between a directory state and the same
directory with modification times touched. -/
def samePathSize (f g : FileMeta) : Prop := f.relPath = g.relPath ∧ f.size = g.size

/-- Concrete one-file directory. -/
def fileA : FileMeta := { relPath := "a.py", size := 3, mtime := 100 }

/-- The same file with its modification time touched. -/
def fileA2 : FileMeta := { relPath := "a.py", size := 3, mtime := 101 }

/-- Concrete cached result for witnesses. -/
def sampleResult : ScanResult :=
  { findings := [sampleFinding]
    score := 15
    verdict := Verdict.mediumRisk
    files_scanned := 1
    duration_ms := 4 }

-- ===========================================================================
-- THEOREMS
-- ===========================================================================

/-- Auxiliary: a u32 foldl sum equals the unbounded sum while no wrap occurs. -/
theorem calc_foldl_no_overflow (fs : List Finding) :
    ∀ acc : Nat, acc + (fs.map scoreTerm).sum < 4294967296 →
      fs.foldl (fun acc f => u32m (acc + u32m (severity_score f.severity * f.weight))) acc =
        acc + (fs.map scoreTerm).sum := by
  induction fs with
  | nil => intro acc _; simp
  | cons f rest ih =>
    intro acc h
    have hterm : severity_score f.severity * f.weight = scoreTerm f := rfl
    have h1 : scoreTerm f < 4294967296 := by
      simp [List.sum_cons] at h; omega
    have h2 : acc + scoreTerm f < 4294967296 := by
      simp [List.sum_cons] at h; omega
    have hstep : u32m (acc + u32m (severity_score f.severity * f.weight)) = acc + scoreTerm f := by
      simp only [hterm, u32m, Nat.mod_eq_of_lt h1, Nat.mod_eq_of_lt h2]
    simp only [List.foldl_cons]
    rw [hstep, ih (acc + scoreTerm f) (by simp [List.sum_cons] at h ⊢; omega)]
    simp [List.sum_cons]; omega

/-- C2: determine_verdict returns the lowest tier (Clean) for an empty finding
list regardless of the score argument, and the highest tier (Critical) for
every finding list containing an (InstallHooks, Critical) finding, regardless
of the score argument. -/
theorem C2_verdict_extremes :
    (∀ score : Nat, determine_verdict [] score = Verdict.clean) ∧
    (∀ (findings : List Finding) (score : Nat),
      (∃ f ∈ findings, f.phase = Phase.installHooks ∧ f.severity = Severity.critical) →
      determine_verdict findings score = Verdict.critical) := by
  constructor
  · intro score; simp [determine_verdict]
  · rintro findings score ⟨f, hf, hphase, hsev⟩
    have hne : findings.isEmpty = false := by
      cases findings with
      | nil => cases hf
      | cons a l => rfl
    have hex : ∃ g ∈ findings,
        g.phase = Phase.installHooks ∧ g.severity = Severity.critical :=
      ⟨f, hf, hphase, hsev⟩
    simp [determine_verdict, hne, hex]

/-- C2 witness: the empty scan is Clean at score 0, and a single
(InstallHooks, Critical) finding forces Critical at score 0. -/
theorem C2_verdict_extremes_witness :
    determine_verdict [] 0 = Verdict.clean ∧
    determine_verdict [criticalInstallFinding] 0 = Verdict.critical :=
  ⟨C2_verdict_extremes.1 0,
   C2_verdict_extremes.2 [criticalInstallFinding] 0
     ⟨criticalInstallFinding, by simp, by decide, by decide⟩⟩

/-- C3 counterexample: with a Critical finding of weight 2 ^ 31 the u32
product 5 * 2 ^ 31 wraps, so calculate_score is not the mathematical sum of
severity_score * weight over the findings. -/
theorem C3_score_formula_cex :
    calculate_score [overflowFinding] ≠
      ([overflowFinding].map fun f => severity_score f.severity * f.weight).sum := by
  decide

/-- C3 amended: whenever the mathematical total of severity_score * weight is
below 2 ^ 32 (true for every finding the scanner itself emits), calculate_score
equals that sum; and the score depends only on each finding severity and
weight (lists that agree on the (severity, weight) projection score equally). -/
theorem C3_score_formula_amended :
    ∀ findings : List Finding,
      ((findings.map fun f => severity_score f.severity * f.weight).sum < 4294967296 →
        calculate_score findings =
          (findings.map fun f => severity_score f.severity * f.weight).sum) ∧
      (∀ others : List Finding,
        (findings.map fun f => (f.severity, f.weight)) =
          (others.map fun f => (f.severity, f.weight)) →
        calculate_score findings = calculate_score others) := by
  intro findings
  constructor
  · intro h
    have hsum : (findings.map scoreTerm).sum < 4294967296 := by
      simpa [scoreTerm] using h
    have := calc_foldl_no_overflow findings 0 (by simpa using hsum)
    simpa [calculate_score, scoreTerm] using this
  · intro others hmap
    have key : ∀ l : List Finding, calculate_score l =
        (l.map fun f => (f.severity, f.weight)).foldl
          (fun acc p => u32m (acc + u32m (severity_score p.1 * p.2))) 0 := by
      intro l
      rw [List.foldl_map]
      rfl
    rw [key findings, key others, hmap]

/-- C3 witness: the amended formula evaluated on a concrete two-finding list,
and score invariance under relabeling rule and file on a concrete pair. -/
theorem C3_score_formula_amended_witness :
    (calculate_score [sampleFinding, criticalInstallFinding] =
      ([sampleFinding, criticalInstallFinding].map
        fun f => severity_score f.severity * f.weight).sum) ∧
    calculate_score [sampleFinding] = calculate_score [relabeledFinding] :=
  ⟨(C3_score_formula_amended [sampleFinding, criticalInstallFinding]).1 (by decide),
   (C3_score_formula_amended [sampleFinding]).2 [relabeledFinding] (by decide)⟩

/-- C8: for a fixed finding list, determine_verdict is monotone in the score
over the ladder Clean < LowRisk < MediumRisk < HighRisk < Critical. -/
theorem C8_verdict_monotone :
    ∀ (findings : List Finding) (s1 s2 : Nat), s1 ≤ s2 →
      verdictRank (determine_verdict findings s1) ≤
        verdictRank (determine_verdict findings s2) := by
  intro findings s1 s2 h
  by_cases he : findings.isEmpty
  · simp [determine_verdict, he]
  · by_cases hex : ∃ g ∈ findings,
        g.phase = Phase.installHooks ∧ g.severity = Severity.critical
    · simp [determine_verdict, he, hex]
    · simp only [determine_verdict, List.any_eq_true, decide_eq_true_eq, hex,
        Bool.false_eq_true, false_or, if_false]
      split_ifs <;> simp [verdictRank] <;> omega

/-- C8 witness: a concrete score increase (5 to 60) does not lower the tier. -/
theorem C8_verdict_monotone_witness :
    verdictRank (determine_verdict [sampleFinding] 5) ≤
      verdictRank (determine_verdict [sampleFinding] 60) :=
  C8_verdict_monotone [sampleFinding] 5 60 (by decide)

/-- C7: diff_scans matches by the (rule, file, line) key: a result diffed
against itself yields no new and no resolved findings, and for every pair of
results the new findings of diff(A, B) are exactly the resolved findings of
diff(B, A), in the same order. -/
theorem C7_diff_self_and_symmetry :
    (∀ R : ScanResult,
      (diff_scans R R).new_findings = [] ∧ (diff_scans R R).resolved_findings = []) ∧
    (∀ A B : ScanResult,
      (diff_scans A B).new_findings = (diff_scans B A).resolved_findings) := by
  constructor
  · intro R
    have key : (R.findings.filter fun finding =>
        ! R.findings.any fun f =>
          f.rule == finding.rule && f.file == finding.file && f.line == finding.line) = [] := by
      rw [List.filter_eq_nil_iff]
      intro a ha hcontra
      have hself : (R.findings.any fun f =>
          f.rule == a.rule && f.file == a.file && f.line == a.line) = true :=
        List.any_eq_true.mpr ⟨a, ha, by simp⟩
      rw [hself] at hcontra
      exact Bool.false_ne_true hcontra
    constructor
    · simpa only [diff_scans] using key
    · simpa only [diff_scans] using key
  · intro A B
    rfl

/-- Helper: approve skips a block of entries whose ids all differ from the
requested id, threading them back onto the resulting ledger. -/
theorem approve_skip (now : Nat) (id : String) (r : Option String)
    (pre rest : List QuarantineEntry) (hpre : ∀ g ∈ pre, g.id ≠ id) :
    approve now id r (pre ++ rest) =
      (approve now id r rest).map fun p => (p.1, pre ++ p.2) := by
  induction pre with
  | nil =>
    simp only [List.nil_append]
    cases approve now id r rest with
    | ok p => rfl
    | error m => rfl
  | cons g gs ih =>
    simp only [List.cons_append, approve, List.append_eq]
    rw [if_neg (hpre g (by simp)), ih fun x hx => hpre x (by simp [hx])]
    cases approve now id r rest with
    | ok p => rfl
    | error m => rfl

/-- Helper: reject skips a block of entries whose ids all differ from the
requested id. -/
theorem reject_skip (now : Nat) (id : String) (r : Option String)
    (pre rest : List QuarantineEntry) (fs : List String)
    (hpre : ∀ g ∈ pre, g.id ≠ id) :
    reject now id r (pre ++ rest) fs =
      (reject now id r rest fs).map fun p => (p.1, pre ++ p.2.1, p.2.2) := by
  induction pre with
  | nil =>
    simp only [List.nil_append]
    cases reject now id r rest fs with
    | ok p => rfl
    | error m => rfl
  | cons g gs ih =>
    simp only [List.cons_append, reject, List.append_eq]
    rw [if_neg (hpre g (by simp)), ih fun x hx => hpre x (by simp [hx])]
    cases reject now id r rest fs with
    | ok p => rfl
    | error m => rfl

/-- C5: quarantine approve and reject succeed exactly once per entry. On the
first Pending entry with the requested id they set the new status (with
timestamp and reason) and return the updated entry and ledger; reject also
removes the staging directory and its contents from the filesystem. A second
call on the same id fails with the already-finalized error, and a call with
an id absent from the ledger fails with the not-found error. -/
theorem C5_quarantine_lifecycle :
    (∀ (pre post : List QuarantineEntry) (e : QuarantineEntry) (r : Option String)
        (now : Nat) (fs : List String),
      (∀ g ∈ pre, g.id ≠ e.id) → e.status = QuarantineStatus.pending →
      (approve now e.id r (pre ++ e :: post) =
        Except.ok
          ({ e with status := QuarantineStatus.approved, updated_at := now, reason := r },
           pre ++ { e with status := QuarantineStatus.approved, updated_at := now, reason := r }
             :: post)) ∧
      (reject now e.id r (pre ++ e :: post) fs =
        Except.ok
          ({ e with status := QuarantineStatus.rejected, updated_at := now, reason := r },
           pre ++ { e with status := QuarantineStatus.rejected, updated_at := now, reason := r }
             :: post,
           removeTree fs e.path)) ∧
      (∀ (r2 : Option String) (now2 : Nat) (fs2 : List String),
        approve now2 e.id r2
            (pre ++ { e with status := QuarantineStatus.approved, updated_at := now, reason := r }
              :: post) =
          Except.error ("entry \x27" ++ e.id ++ "\x27 is already " ++
            statusDisplay QuarantineStatus.approved ++ " (cannot approve)") ∧
        reject now2 e.id r2
            (pre ++ { e with status := QuarantineStatus.approved, updated_at := now, reason := r }
              :: post) fs2 =
          Except.error ("entry \x27" ++ e.id ++ "\x27 is already " ++
            statusDisplay QuarantineStatus.approved ++ " (cannot reject)") ∧
        approve now2 e.id r2
            (pre ++ { e with status := QuarantineStatus.rejected, updated_at := now, reason := r }
              :: post) =
          Except.error ("entry \x27" ++ e.id ++ "\x27 is already " ++
            statusDisplay QuarantineStatus.rejected ++ " (cannot approve)") ∧
        reject now2 e.id r2
            (pre ++ { e with status := QuarantineStatus.rejected, updated_at := now, reason := r }
              :: post) fs2 =
          Except.error ("entry \x27" ++ e.id ++ "\x27 is already " ++
            statusDisplay QuarantineStatus.rejected ++ " (cannot reject)"))) ∧
    (∀ (index : List QuarantineEntry) (id : String) (r : Option String)
        (now : Nat) (fs : List String),
      (∀ g ∈ index, g.id ≠ id) →
      approve now id r index =
        Except.error ("quarantine entry \x27" ++ id ++ "\x27 not found") ∧
      reject now id r index fs =
        Except.error ("quarantine entry \x27" ++ id ++ "\x27 not found")) := by
  constructor
  · intro pre post e r now fs hpre hpend
    refine ⟨?_, ?_, ?_⟩
    · rw [approve_skip now e.id r pre (e :: post) hpre]
      simp [approve, hpend, Except.map]
    · rw [reject_skip now e.id r pre (e :: post) fs hpre]
      simp [reject, hpend, Except.map]
    · intro r2 now2 fs2
      refine ⟨?_, ?_, ?_, ?_⟩
      · rw [approve_skip now2 e.id r2 pre _ hpre]
        simp [approve, statusDisplay, Except.map]
      · rw [reject_skip now2 e.id r2 pre _ fs2 hpre]
        simp [reject, statusDisplay, Except.map]
      · rw [approve_skip now2 e.id r2 pre _ hpre]
        simp [approve, statusDisplay, Except.map]
      · rw [reject_skip now2 e.id r2 pre _ fs2 hpre]
        simp [reject, statusDisplay, Except.map]
  · intro index id r now fs hpre
    constructor
    · have := approve_skip now id r index [] (by simpa using hpre)
      simpa [approve, Except.map] using this
    · have := reject_skip now id r index [] fs (by simpa using hpre)
      simpa [reject, Except.map] using this

/-- C5 witness: on a concrete one-entry Pending ledger, reject finalizes the
entry and deletes the staged directory and the file under it; a second
operation on the approved ledger and a lookup of an unknown id both fail. -/
theorem C5_quarantine_lifecycle_witness :
    (reject 7 "q1" (some "bad") [pendingEntry]
        [".sigil/quarantine/q1", ".sigil/quarantine/q1/a.py", "keep.txt"] =
      Except.ok
        ({ pendingEntry with status := QuarantineStatus.rejected,
                             updated_at := 7, reason := some "bad" },
         [{ pendingEntry with status := QuarantineStatus.rejected,
                              updated_at := 7, reason := some "bad" }],
         removeTree [".sigil/quarantine/q1", ".sigil/quarantine/q1/a.py", "keep.txt"]
           pendingEntry.path)) ∧
    (removeTree [".sigil/quarantine/q1", ".sigil/quarantine/q1/a.py", "keep.txt"]
        pendingEntry.path = ["keep.txt"]) ∧
    (approve 9 "q1" none
        [{ pendingEntry with status := QuarantineStatus.approved,
                             updated_at := 7, reason := some "ok" }] =
      Except.error "entry \x27q1\x27 is already approved (cannot approve)") ∧
    (approve 9 "zz" none [pendingEntry] =
      Except.error "quarantine entry \x27zz\x27 not found") :=
  ⟨((C5_quarantine_lifecycle.1 [] [] pendingEntry (some "bad") 7
      [".sigil/quarantine/q1", ".sigil/quarantine/q1/a.py", "keep.txt"])
      (by simp) rfl).2.1,
   by decide,
   (((C5_quarantine_lifecycle.1 [] [] pendingEntry (some "ok") 7 [])
      (by simp) rfl).2.2 none 9 []).1,
   (C5_quarantine_lifecycle.2 [pendingEntry] "zz" none 9 []
      (by intro g hg; simp at hg; subst hg; decide)).1⟩

/-- C10: quarantine list with a status-filter string that is not pending,
approved or rejected (after lowercasing) neither fails nor returns the whole
ledger shape: it returns exactly the Pending entries, in ledger order,
because the unrecognized filter defaults to Pending. -/
theorem C10_list_unknown_filter :
    ∀ (index : List QuarantineEntry) (s : String),
      lowerAscii s ≠ "pending" → lowerAscii s ≠ "approved" → lowerAscii s ≠ "rejected" →
      listQuarantine index (some s) =
        Except.ok (index.filter fun e => decide (e.status = QuarantineStatus.pending)) := by
  intro index s h1 h2 h3
  simp [listQuarantine, parseStatusFilter, h1, h2, h3]

/-- C10 witness: filtering a mixed concrete ledger with the unrecognized
status string all returns only the pending entry. -/
theorem C10_list_unknown_filter_witness :
    listQuarantine [pendingEntry, approvedEntry] (some "all") =
      Except.ok ([pendingEntry, approvedEntry].filter
        fun e => decide (e.status = QuarantineStatus.pending)) :=
  C10_list_unknown_filter [pendingEntry, approvedEntry] "all"
    (by decide) (by decide) (by decide)

/-- Auxiliary: every finding emitted for one line carries the phase of the
scan and the rule id of some row of the pattern table. -/
theorem lineFindings_mem (file : String) (phase : Phase) (weight : Nat)
    (lineNum : Nat) (line : String) :
    ∀ (ps : List PatternRule) (fs : List Finding),
      lineFindings file phase weight lineNum line ps = some fs →
      ∀ f ∈ fs, f.phase = phase ∧ ∃ p ∈ ps, f.rule = p.rule := by
  intro ps
  induction ps with
  | nil =>
    intro fs h f hf
    simp only [lineFindings, Option.some.injEq] at h
    subst h
    cases hf
  | cons p ps ih =>
    intro fs h f hf
    by_cases hm : p.isMatch line
    · rw [lineFindings, if_pos hm] at h
      cases hsnip : rustSnippet line with
      | none => rw [hsnip] at h; cases h
      | some snip =>
        rw [hsnip] at h
        cases hrec : lineFindings file phase weight lineNum line ps with
        | none => rw [hrec] at h; cases h
        | some rest =>
          rw [hrec] at h
          simp only [Option.map_some', Option.some.injEq] at h
          subst h
          rcases List.mem_cons.mp hf with rfl | hmem
          · exact ⟨rfl, p, List.mem_cons_self p ps, rfl⟩
          · rcases ih rest hrec f hmem with ⟨hph, q, hq, hr⟩
            exact ⟨hph, q, List.mem_cons_of_mem p hq, hr⟩
    · rw [lineFindings, if_neg hm] at h
      rcases ih fs h f hf with ⟨hph, q, hq, hr⟩
      exact ⟨hph, q, List.mem_cons_of_mem p hq, hr⟩

/-- Auxiliary: the line loop preserves the per-line membership property. -/
theorem scanLinesGo_mem (file : String) (phase : Phase) (weight : Nat)
    (patterns : List PatternRule) :
    ∀ (lines : List String) (lineNum : Nat) (fs : List Finding),
      scanLinesGo file phase weight patterns lineNum lines = some fs →
      ∀ f ∈ fs, f.phase = phase ∧ ∃ p ∈ patterns, f.rule = p.rule := by
  intro lines
  induction lines with
  | nil =>
    intro n fs h f hf
    simp only [scanLinesGo, Option.some.injEq] at h
    subst h
    cases hf
  | cons line rest ih =>
    intro n fs h f hf
    rw [scanLinesGo] at h
    cases hline : lineFindings file phase weight n line patterns with
    | none => rw [hline] at h; cases h
    | some here =>
      rw [hline] at h
      cases hrec : scanLinesGo file phase weight patterns (n + 1) rest with
      | none => rw [hrec] at h; cases h
      | some tail =>
        rw [hrec] at h
        simp only [Option.map_some', Option.some.injEq] at h
        subst h
        rcases List.mem_append.mp hf with hmem | hmem
        · exact lineFindings_mem file phase weight n line patterns here hline f hmem
        · exact ih (n + 1) tail hrec f hmem

/-- C4 counterexample: notes.txt is none of the recognized install-manifest
filenames, yet scanning it with content mcpServers produces an InstallHooks
finding (rule INSTALL-MCP-002), because the two MCP rules are pushed for
every filename. -/
theorem C4_install_hooks_unrecognized_cex :
    (fileNameOf "notes.txt" ∉
      (["setup.py", "setup.cfg", "package.json", "Makefile", "makefile",
        "pyproject.toml"] : List String)) ∧
    strEnds ".mk" (fileNameOf "notes.txt") = false ∧
    scan_install_hooks "notes.txt" "mcpServers" = some [mcpFinding] ∧
    mcpFinding.phase = Phase.installHooks :=
  ⟨by decide, by decide, by decide, rfl⟩

/-- C4 amended: for every file whose filename is none of the recognized
install-manifest names, scan_install_hooks emits findings only from the two
filename-independent MCP content rules (INSTALL-MCP-001, INSTALL-MCP-002);
no filename-gated install-manifest rule can fire. -/
theorem C4_install_hooks_unrecognized_amended :
    ∀ (file contents : String) (fs : List Finding),
      fileNameOf file ≠ "setup.py" → fileNameOf file ≠ "setup.cfg" →
      fileNameOf file ≠ "package.json" → fileNameOf file ≠ "Makefile" →
      fileNameOf file ≠ "makefile" → strEnds ".mk" (fileNameOf file) = false →
      fileNameOf file ≠ "pyproject.toml" →
      scan_install_hooks file contents = some fs →
      ∀ f ∈ fs, f.phase = Phase.installHooks ∧
        (f.rule = "INSTALL-MCP-001" ∨ f.rule = "INSTALL-MCP-002") := by
  intro file contents fs h1 h2 h3 h4 h5 h6 h7 hscan f hf
  have htab : installHooksTable (fileNameOf file) = [mcpRule1, mcpRule2] := by
    simp [installHooksTable, h1, h2, h3, h4, h5, h6, h7]
  rw [scan_install_hooks, htab, scan_lines] at hscan
  rcases scanLinesGo_mem file Phase.installHooks 10 [mcpRule1, mcpRule2]
      (rustLines contents) 0 fs hscan f hf with ⟨hph, p, hp, hr⟩
  refine ⟨hph, ?_⟩
  rcases List.mem_cons.mp hp with rfl | hp2
  · exact Or.inl hr
  · rcases List.mem_cons.mp hp2 with rfl | hp3
    · exact Or.inr hr
    · cases hp3

/-- C4 witness: the amended statement instantiated on notes.txt with content
mcpServers and its single emitted finding. -/
theorem C4_install_hooks_unrecognized_amended_witness :
    mcpFinding.phase = Phase.installHooks ∧
    (mcpFinding.rule = "INSTALL-MCP-001" ∨ mcpFinding.rule = "INSTALL-MCP-002") :=
  C4_install_hooks_unrecognized_amended "notes.txt" "mcpServers" [mcpFinding]
    (by decide) (by decide) (by decide) (by decide) (by decide) (by decide) (by decide)
    (by decide) mcpFinding (List.mem_singleton.mpr rfl)

/-- Auxiliary: building a table aborts when the engine rejects any row. -/
theorem compileTable_none (engine : RegexEngine) :
    ∀ rows : List RuleSource, (∃ r ∈ rows, engine r.pattern = none) →
      compileTable engine rows = none := by
  intro rows
  induction rows with
  | nil => rintro ⟨r, hr, _⟩; cases hr
  | cons a rs ih =>
    rintro ⟨r, hr, hnone⟩
    rw [compileTable]
    rcases List.mem_cons.mp hr with rfl | hmem
    · rw [hnone]
    · cases hae : engine a.pattern with
      | none => rfl
      | some m => rw [ih ⟨r, hmem, hnone⟩]; rfl

/-- C1: pattern-compile failures and abort behavior. Under any regex engine
that (like the regex crate) rejects patterns with an ill-formed hex escape,
scan_obfuscation panics for every file and content, because its rule table
contains the OBFUSC-006 pattern whose backslash-x is followed by a bracket
(and likewise OBFUSC-008); the claim that every built-in detector returns
findings without aborting therefore fails. A cloud signature whose pattern
the engine rejects is, by contrast, skipped silently and the scan continues
over the remaining signatures. -/
theorem C1_pattern_compile_abort :
    (∀ engine : RegexEngine, RespectsHexEscapes engine →
      ∀ file contents : String, scan_obfuscation engine file contents = none) ∧
    (∀ (engine : RegexEngine) (file contents : String)
        (sigs1 sigs2 : List CloudSignature) (sig : CloudSignature),
      engine sig.pattern = none →
      scan_with_cloud_signatures engine file contents (sigs1 ++ sig :: sigs2) =
        scan_with_cloud_signatures engine file contents (sigs1 ++ sigs2)) := by
  constructor
  · intro engine hresp file contents
    have hmem : obfusc006Row ∈ obfuscationPatterns := by decide
    have hbad := hresp obfusc006Row.pattern (by decide)
    have htab := compileTable_none engine obfuscationPatterns ⟨_, hmem, hbad⟩
    rw [scan_obfuscation, htab]
  · intro engine file contents sigs1 sigs2 sig hnone
    induction sigs1 with
    | nil =>
      rw [List.nil_append, List.nil_append, scan_with_cloud_signatures, hnone]
    | cons s ss ih =>
      rw [List.cons_append, List.cons_append, scan_with_cloud_signatures,
        scan_with_cloud_signatures]
      cases hs : engine s.pattern with
      | none => exact ih
      | some m =>
        dsimp only
        cases hf : cloudSigFindings file s m 0 (rustLines contents) with
        | none => rfl
        | some fs => rw [ih]

/-- C1 witness: the concrete hex-escape-checking engine makes the
obfuscation scan abort on a concrete input, and a concrete bad cloud
signature is skipped without affecting the scan of the rest. -/
theorem C1_pattern_compile_abort_witness :
    scan_obfuscation hexCheckEngine "a.py" "atob(x)" = none ∧
    scan_with_cloud_signatures hexCheckEngine "a.py" "data" [badCloudSig] =
      scan_with_cloud_signatures hexCheckEngine "a.py" "data" [] :=
  ⟨C1_pattern_compile_abort.1 hexCheckEngine
      (fun p h => by simp [hexCheckEngine, h]) "a.py" "atob(x)",
   by
     have hbad : hasBadHexEscape badCloudSig.pattern.data = true := by decide
     have := C1_pattern_compile_abort.2 hexCheckEngine "a.py" "data" [] [] badCloudSig
       (by simp [hexCheckEngine, hbad])
     simpa using this⟩

/-- Auxiliary: slicing a concatenation at the byte length of its first part
returns exactly that part. -/
theorem bytePrefix_exact :
    ∀ (pre rest : List Char), bytePrefixChars (pre ++ rest) (byteLen pre) = some pre := by
  intro pre
  induction pre with
  | nil =>
    intro rest
    have h0 : byteLen ([] : List Char) = 0 := rfl
    rw [List.nil_append, h0]
    cases rest with
    | nil => rfl
    | cons c cs => rfl
  | cons c cs ih =>
    intro rest
    have hsz : 0 < c.utf8Size := Char.utf8Size_pos c
    have hlen : byteLen (c :: cs) = c.utf8Size + byteLen cs := by
      simp [byteLen]
    obtain ⟨k, hk⟩ : ∃ k, byteLen (c :: cs) = k + 1 :=
      ⟨byteLen (c :: cs) - 1, by omega⟩
    rw [List.cons_append, hk, bytePrefixChars]
    rw [if_pos (by omega)]
    have hsub : k + 1 - c.utf8Size = byteLen cs := by omega
    rw [hsub, ih rest]
    rfl

/-- C9: snippet truncation. A line of at most 200 bytes is emitted
unmodified; an overlong line whose byte offset 200 is a character boundary
is truncated to its 200-byte prefix with a trailing ellipsis; but the byte
slice is NOT defined for every line: on a concrete 201-byte line whose
offset 200 falls inside a two-byte character the snippet computation panics,
and with it the whole line scan aborts, refuting the never-aborts part of
the claim. -/
theorem C9_snippet_truncation_abort :
    (∀ line : String, byteLen line.toList ≤ 200 → rustSnippet line = some line) ∧
    (∀ (line : String) (pre rest : List Char),
      200 < byteLen line.toList → line.toList = pre ++ rest → byteLen pre = 200 →
      rustSnippet line = some (String.mk pre ++ " ...")) ∧
    rustSnippet overlongLine = none ∧
    scan_lines "notes.txt" overlongLine Phase.installHooks 10
      (installHooksTable (fileNameOf "notes.txt")) = none := by
  refine ⟨?_, ?_, by decide, by decide⟩
  · intro line h
    rw [rustSnippet, if_neg (by omega)]
  · intro line pre rest hgt hsplit hpre
    rw [rustSnippet, if_pos hgt, hsplit, ← hpre, bytePrefix_exact]
    rfl

/-- C9 witness: a short line passes through unchanged and a 250-byte ASCII
line is truncated to 200 bytes plus the ellipsis. -/
theorem C9_snippet_truncation_abort_witness :
    rustSnippet "short line" = some "short line" ∧
    rustSnippet ascii250 = some (String.mk (List.replicate 200 'b') ++ " ...") :=
  ⟨C9_snippet_truncation_abort.1 "short line" (by decide),
   C9_snippet_truncation_abort.2.1 ascii250 (List.replicate 200 'b')
     (List.replicate 50 'b') (by decide) (by decide) (by decide)⟩


/-- Auxiliary: a key absent from a cache store is absent after filtering. -/
theorem lookupCache_filter_none (store : CacheStore) (key k : String)
    (h : lookupCache store key = none) :
    lookupCache (store.filter fun p => !(p.1 == k)) key = none := by
  induction store with
  | nil => rfl
  | cons a rest ih =>
    obtain ⟨ak, ae⟩ := a
    rw [lookupCache] at h
    by_cases hk : ak = key
    · rw [if_pos hk] at h; cases h
    · rw [if_neg hk] at h
      by_cases hkk : ak = k
      · simp only [List.filter_cons, hkk]
        simpa using ih h
      · simp only [List.filter_cons]
        rw [if_pos (by simp [hkk])]
        rw [lookupCache, if_neg hk]
        exact ih h

/-- Auxiliary: to_le_bytes is injective below 2 ^ 64. -/
theorem leBytes8_inj (n m : Nat) (hn : n < 18446744073709551616)
    (hm : m < 18446744073709551616) (h : leBytes8 n = leBytes8 m) : n = m := by
  simp only [leBytes8, List.cons.injEq, and_true] at h
  omega

/-- Auxiliary: chunks of files with equal path and size have equal length,
and equal chunks force equal files (below the u64 mtime bound). -/
theorem fileChunk_inj (f g : FileMeta) (hps : samePathSize f g)
    (hf : f.mtime < 18446744073709551616) (hg : g.mtime < 18446744073709551616)
    (h : fileChunk f = fileChunk g) : f = g := by
  obtain ⟨hpath, hsize⟩ := hps
  rw [fileChunk, fileChunk, hpath, hsize, List.append_assoc, List.append_assoc] at h
  have h2 := List.append_cancel_left h
  have h3 := List.append_cancel_left h2
  have hmt := leBytes8_inj f.mtime g.mtime hf hg h3
  cases f; cases g
  simp_all

/-- Auxiliary: chunk lengths agree on files with equal path and size. -/
theorem fileChunk_length (f g : FileMeta) (hps : samePathSize f g) :
    (fileChunk f).length = (fileChunk g).length := by
  obtain ⟨hpath, hsize⟩ := hps
  rw [fileChunk, fileChunk, hpath, hsize]
  simp [leBytes8]

/-- Auxiliary: btreeInsert sends same-path-and-size related inputs to
related outputs (its comparisons only inspect paths). -/
theorem btreeInsert_forall2 :
    ∀ (m m' : List FileMeta) (f f' : FileMeta),
      List.Forall₂ samePathSize m m' → samePathSize f f' →
      List.Forall₂ samePathSize (btreeInsert m f) (btreeInsert m' f') := by
  intro m
  induction m with
  | nil =>
    intro m' f f' hmm hff
    cases hmm
    exact List.Forall₂.cons hff List.Forall₂.nil
  | cons g rest ih =>
    intro m' f f' hmm hff
    cases hmm with
    | cons hgg hrest =>
      rename_i g' rest'
      dsimp only [btreeInsert]
      rw [hff.1, hgg.1]
      by_cases h1 : charListLt f'.relPath.data g'.relPath.data
      · rw [if_pos h1, if_pos h1]
        exact List.Forall₂.cons hff (List.Forall₂.cons hgg hrest)
      · rw [if_neg h1, if_neg h1]
        by_cases h2 : f'.relPath = g'.relPath
        · rw [if_pos h2, if_pos h2]
          exact List.Forall₂.cons hff hrest
        · rw [if_neg h2, if_neg h2]
          exact List.Forall₂.cons hgg (ih rest' f f' hrest hff)

/-- Auxiliary: the inserted file is in the result. -/
theorem mem_btreeInsert_self : ∀ (m : List FileMeta) (f : FileMeta), f ∈ btreeInsert m f := by
  intro m f
  induction m with
  | nil => exact List.mem_singleton.mpr rfl
  | cons g rest ih =>
    dsimp only [btreeInsert]
    by_cases h1 : charListLt f.relPath.data g.relPath.data
    · rw [if_pos h1]; exact List.mem_cons_self f (g :: rest)
    · rw [if_neg h1]
      by_cases h2 : f.relPath = g.relPath
      · rw [if_pos h2]; exact List.mem_cons_self f rest
      · rw [if_neg h2]; exact List.mem_cons_of_mem g ih

/-- Auxiliary: members of an insertion are the new file or old members. -/
theorem mem_btreeInsert_elim :
    ∀ (m : List FileMeta) (f g : FileMeta), g ∈ btreeInsert m f → g = f ∨ g ∈ m := by
  intro m
  induction m with
  | nil =>
    intro f g hg
    exact Or.inl (List.mem_singleton.mp hg)
  | cons a rest ih =>
    intro f g hg
    dsimp only [btreeInsert] at hg
    by_cases h1 : charListLt f.relPath.data a.relPath.data
    · rw [if_pos h1] at hg
      rcases List.mem_cons.mp hg with rfl | hg2
      · exact Or.inl rfl
      · exact Or.inr hg2
    · rw [if_neg h1] at hg
      by_cases h2 : f.relPath = a.relPath
      · rw [if_pos h2] at hg
        rcases List.mem_cons.mp hg with rfl | hg2
        · exact Or.inl rfl
        · exact Or.inr (List.mem_cons_of_mem a hg2)
      · rw [if_neg h2] at hg
        rcases List.mem_cons.mp hg with rfl | hg2
        · exact Or.inr (List.mem_cons_self g rest)
        · rcases ih f g hg2 with h | h
          · exact Or.inl h
          · exact Or.inr (List.mem_cons_of_mem a h)

/-- Auxiliary: an old member with a different path survives an insertion. -/
theorem mem_btreeInsert_keep :
    ∀ (m : List FileMeta) (f g : FileMeta), g ∈ m → g.relPath ≠ f.relPath →
      g ∈ btreeInsert m f := by
  intro m
  induction m with
  | nil => intro f g hg _; cases hg
  | cons a rest ih =>
    intro f g hg hne
    dsimp only [btreeInsert]
    by_cases h1 : charListLt f.relPath.data a.relPath.data
    · rw [if_pos h1]; exact List.mem_cons_of_mem f hg
    · rw [if_neg h1]
      by_cases h2 : f.relPath = a.relPath
      · rw [if_pos h2]
        rcases List.mem_cons.mp hg with rfl | hg2
        · exact absurd (h2.symm) hne
        · exact List.mem_cons_of_mem f hg2
      · rw [if_neg h2]
        rcases List.mem_cons.mp hg with rfl | hg2
        · exact List.mem_cons_self g _
        · exact List.mem_cons_of_mem a (ih f g hg2 hne)

/-- Auxiliary: the insertion fold preserves the same-path-and-size relation
between two walks of related directories. -/
theorem foldl_insert_forall2 :
    ∀ (files files' acc acc' : List FileMeta),
      List.Forall₂ samePathSize files files' → List.Forall₂ samePathSize acc acc' →
      List.Forall₂ samePathSize (files.foldl btreeInsert acc)
        (files'.foldl btreeInsert acc') := by
  intro files
  induction files with
  | nil =>
    intro files' acc acc' hff hacc
    cases hff
    exact hacc
  | cons f fs ih =>
    intro files' acc acc' hff hacc
    cases hff with
    | cons hf hfs =>
      rename_i f' fs'
      exact ih fs' _ _ hfs (btreeInsert_forall2 acc _ f f' hacc hf)

/-- Auxiliary: members of the insertion fold come from the accumulator or
the walked files. -/
theorem mem_foldl_insert_elim :
    ∀ (files acc : List FileMeta) (g : FileMeta),
      g ∈ files.foldl btreeInsert acc → g ∈ acc ∨ g ∈ files := by
  intro files
  induction files with
  | nil => intro acc g hg; exact Or.inl hg
  | cons f fs ih =>
    intro acc g hg
    rcases ih (btreeInsert acc f) g hg with h | h
    · rcases mem_btreeInsert_elim acc f g h with rfl | h2
      · exact Or.inr (List.mem_cons_self g fs)
      · exact Or.inl h2
    · exact Or.inr (List.mem_cons_of_mem f h)

/-- Auxiliary: an accumulator member whose path is absent from the walked
files survives the insertion fold. -/
theorem mem_foldl_insert_keep :
    ∀ (files acc : List FileMeta) (g : FileMeta),
      g ∈ acc → (∀ f ∈ files, g.relPath ≠ f.relPath) →
      g ∈ files.foldl btreeInsert acc := by
  intro files
  induction files with
  | nil => intro acc g hg _; exact hg
  | cons f fs ih =>
    intro acc g hg hne
    exact ih (btreeInsert acc f) g
      (mem_btreeInsert_keep acc f g hg (hne f (List.mem_cons_self f fs)))
      (fun x hx => hne x (List.mem_cons_of_mem f hx))

/-- Auxiliary: with pairwise distinct paths every walked file ends up in the
built map. -/
theorem mem_foldl_insert_self :
    ∀ (files acc : List FileMeta) (f : FileMeta),
      f ∈ files → (files.map FileMeta.relPath).Nodup →
      f ∈ files.foldl btreeInsert acc := by
  intro files
  induction files with
  | nil => intro acc f hf _; cases hf
  | cons a fs ih =>
    intro acc f hf hnd
    rw [List.map_cons, List.nodup_cons] at hnd
    rcases List.mem_cons.mp hf with rfl | hf2
    · exact mem_foldl_insert_keep fs (btreeInsert acc f) f
        (mem_btreeInsert_self acc f)
        (fun x hx hpx => hnd.1 (hpx ▸ List.mem_map_of_mem FileMeta.relPath hx))
    · exact ih (btreeInsert acc a) f hf2 hnd.2

/-- Auxiliary: related file lists have identical path projections. -/
theorem forall2_paths_eq :
    ∀ (l l' : List FileMeta), List.Forall₂ samePathSize l l' →
      l.map FileMeta.relPath = l'.map FileMeta.relPath := by
  intro l
  induction l with
  | nil => intro l' h; cases h; rfl
  | cons a as ih =>
    intro l' h
    cases h with
    | cons hab hrest =>
      rename_i b bs
      rw [List.map_cons, List.map_cons, hab.1, ih bs hrest]

/-- Auxiliary: equal chunk streams of related sorted lists force equal
lists (chunk lengths agree pointwise, so the concatenation is injective,
and each chunk determines its file below the u64 mtime bound). -/
theorem chunks_flatten_inj :
    ∀ (s s' : List FileMeta), List.Forall₂ samePathSize s s' →
      (∀ f ∈ s, f.mtime < 18446744073709551616) →
      (∀ f ∈ s', f.mtime < 18446744073709551616) →
      (s.map fileChunk).flatten = (s'.map fileChunk).flatten → s = s' := by
  intro s s' h
  induction h with
  | nil => intro _ _ _; rfl
  | cons hab hrest ih =>
    rename_i a b l1 l2
    intro hs hs' heq
    simp only [List.map_cons, List.flatten_cons] at heq
    obtain ⟨h1, h2⟩ := List.append_inj heq (fileChunk_length a b hab)
    have hae : a = b :=
      fileChunk_inj a b hab (hs a (List.mem_cons_self a l1))
        (hs' b (List.mem_cons_self b l2)) h1
    subst hae
    rw [ih (fun f hf => hs f (List.mem_cons_of_mem a hf))
      (fun f hf => hs' f (List.mem_cons_of_mem a hf)) h2]

/-- Auxiliary: a path-and-size-related sublist relation with distinct paths
forces list equality. -/
theorem forall2_subset_eq :
    ∀ (files files' : List FileMeta), List.Forall₂ samePathSize files files' →
      (files'.map FileMeta.relPath).Nodup →
      (∀ f ∈ files, f ∈ files') → files = files' := by
  intro files files' h
  induction h with
  | nil => intro _ _; rfl
  | cons hab hrest ih =>
    rename_i a b l1 l2
    intro hnd hsub
    rw [List.map_cons, List.nodup_cons] at hnd
    have haeqb : a = b := by
      rcases List.mem_cons.mp (hsub a (List.mem_cons_self a l1)) with h | h
      · exact h
      · exfalso
        exact hnd.1 (hab.1 ▸ List.mem_map_of_mem FileMeta.relPath h)
    subst haeqb
    have hpaths := forall2_paths_eq l1 l2 hrest
    have htail : ∀ f ∈ l1, f ∈ l2 := by
      intro f hf
      rcases List.mem_cons.mp (hsub f (List.mem_cons_of_mem a hf)) with he | he
      · exfalso
        apply hnd.1
        rw [← hpaths]
        exact he ▸ List.mem_map_of_mem FileMeta.relPath hf
      · exact he
    rw [ih hnd.2 htail]

/-- C6: cache fingerprint discipline. (1) Storing a result for a directory
and immediately loading it for the unmodified directory returns exactly
that result. (2) Whenever the freshly computed fingerprint differs from the
one stored for the directory (and the cache held no file under the new
fingerprint key beforehand), the load is a miss. (3) Changing any file
modification time (same paths and sizes, distinct paths, u64 times) changes
the byte stream the fingerprint hashes. (4) A load returns a result only
from an entry whose version equals CACHE_VERSION and whose stored
fingerprint equals the freshly computed one, exactly. Collision-freeness of
SHA-256, which turns (3) into a changed digest, is checked concretely in
the witness. -/
theorem C6_cache_fingerprint :
    (∀ (files : List FileMeta) (result : ScanResult) (store : CacheStore),
      load_cached files (save_to_cache files result store) = some result) ∧
    (∀ (files files' : List FileMeta) (result : ScanResult) (store : CacheStore),
      compute_directory_hash files' ≠ compute_directory_hash files →
      lookupCache store (cacheFileName (compute_directory_hash files')) = none →
      load_cached files' (save_to_cache files result store) = none) ∧
    (∀ files files' : List FileMeta,
      List.Forall₂ samePathSize files files' →
      (files.map FileMeta.relPath).Nodup →
      (∀ f ∈ files, f.mtime < 18446744073709551616) →
      (∀ f ∈ files', f.mtime < 18446744073709551616) →
      files ≠ files' → hashStream files ≠ hashStream files') ∧
    (∀ (files : List FileMeta) (store : CacheStore) (r : ScanResult),
      load_cached files store = some r →
      ∃ entry,
        lookupCache store (cacheFileName (compute_directory_hash files)) = some entry ∧
        entry.version = CACHE_VERSION ∧
        entry.directory_hash = compute_directory_hash files ∧ entry.result = r) := by
  refine ⟨?_, ?_, ?_, ?_⟩
  · intro files result store
    simp [load_cached, save_to_cache, storeWrite, lookupCache, CACHE_VERSION]
  · intro files files' result store hne hstore
    have hlook : lookupCache (save_to_cache files result store)
        (cacheFileName (compute_directory_hash files')) =
        (if cacheFileName (compute_directory_hash files) =
            cacheFileName (compute_directory_hash files')
         then some { version := CACHE_VERSION,
                     directory_hash := compute_directory_hash files,
                     result := result }
         else none) := by
      rw [save_to_cache, storeWrite, lookupCache]
      by_cases hk : cacheFileName (compute_directory_hash files) =
          cacheFileName (compute_directory_hash files')
      · rw [if_pos hk, if_pos hk]
      · rw [if_neg hk, if_neg hk, lookupCache_filter_none store _ _ hstore]
    rw [load_cached, hlook]
    by_cases hk : cacheFileName (compute_directory_hash files) =
        cacheFileName (compute_directory_hash files')
    · rw [if_pos hk]
      dsimp only
      rw [if_neg]
      rintro ⟨_, hh⟩
      exact hne (by simpa using hh.symm)
    · rw [if_neg hk]
  · intro files files' hF2 hnd hb hb' hne heq
    apply hne
    have hF2s := foldl_insert_forall2 files files' [] [] hF2 List.Forall₂.nil
    have hbs : ∀ f ∈ sortDedup files, f.mtime < 18446744073709551616 := by
      intro f hf
      rcases mem_foldl_insert_elim files [] f hf with h | h
      · cases h
      · exact hb f h
    have hbs' : ∀ f ∈ sortDedup files', f.mtime < 18446744073709551616 := by
      intro f hf
      rcases mem_foldl_insert_elim files' [] f hf with h | h
      · cases h
      · exact hb' f h
    rw [hashStream, hashStream] at heq
    have hsorted := chunks_flatten_inj (sortDedup files) (sortDedup files') hF2s hbs hbs' heq
    have hnd' : (files'.map FileMeta.relPath).Nodup :=
      forall2_paths_eq files files' hF2 ▸ hnd
    apply forall2_subset_eq files files' hF2 hnd'
    intro f hf
    have h1 : f ∈ sortDedup files := mem_foldl_insert_self files [] f hf hnd
    rw [hsorted] at h1
    rcases mem_foldl_insert_elim files' [] f h1 with h | h
    · cases h
    · exact h
  · intro files store r hload
    rw [load_cached] at hload
    cases hl : lookupCache store (cacheFileName (compute_directory_hash files)) with
    | none => rw [hl] at hload; cases hload
    | some entry =>
      rw [hl] at hload
      dsimp only at hload
      by_cases hcond : entry.version = CACHE_VERSION ∧
          entry.directory_hash = compute_directory_hash files
      · rw [if_pos hcond] at hload
        cases hload
        exact ⟨entry, rfl, hcond.1, hcond.2, rfl⟩
      · rw [if_neg hcond] at hload; cases hload

/-- C6 witness: on a concrete one-file directory, store-then-load returns
the stored result; touching the modification time changes the fingerprint
stream and the SHA-256 digest, so the subsequent load misses; and the hit
comes from an entry matching version and fingerprint exactly. -/
theorem C6_cache_fingerprint_witness :
    load_cached [fileA] (save_to_cache [fileA] sampleResult []) = some sampleResult ∧
    load_cached [fileA2] (save_to_cache [fileA] sampleResult []) = none ∧
    hashStream [fileA] ≠ hashStream [fileA2] ∧
    (∃ entry,
      lookupCache (save_to_cache [fileA] sampleResult [])
        (cacheFileName (compute_directory_hash [fileA])) = some entry ∧
      entry.version = CACHE_VERSION ∧
      entry.directory_hash = compute_directory_hash [fileA] ∧
      entry.result = sampleResult) :=
  ⟨C6_cache_fingerprint.1 [fileA] sampleResult [],
   C6_cache_fingerprint.2.1 [fileA] [fileA2] sampleResult [] (by decide) rfl,
   C6_cache_fingerprint.2.2.1 [fileA] [fileA2]
     (List.Forall₂.cons ⟨rfl, rfl⟩ List.Forall₂.nil)
     (by decide) (by decide) (by decide) (by decide),
   C6_cache_fingerprint.2.2.2 [fileA] (save_to_cache [fileA] sampleResult [])
     sampleResult (C6_cache_fingerprint.1 [fileA] sampleResult [])⟩

end Sigil
